import Mathlib

/-!
Verification development for the HackAtariHumanPlay repository.

The repository has two source files:
* `src/hackatari/games/fishingderby.py` — per-step "behavior mode" patchers
  (`alter_shark`, `alter_fish`) that rewrite fixed RAM cells of the Fishing
  Derby game, and `modif_funcs`, which parses modification strings into
  mode selectors and step-callback lists.
* `src/rem_gui.py` — an interactive GUI whose core algorithm,
  `find_causative_ram`, brute-force scans RAM to find cells that causally
  influence a chosen screen pixel; plus direct RAM-editing helpers.

RAM is modelled as a total function `Fin n → Nat` (the Atari RAM is a fixed
length byte array; `ale.setRAM`/`ale.getRAM` index it in bounds).  The
emulator itself (`env.step(0)` dynamics and the screen buffer) is an
opaque external collaborator and is modelled as an abstract machine with
an arbitrary step function and screen read-out over a state consisting of
the RAM plus an arbitrary hidden component.
-/

namespace HackAtariHumanPlay

/-- RAM contents: a total assignment of a value to each of the `n` cells. -/
abbrev RamF (n : Nat) := Fin n → Nat

/-- Write value `v` to cell `i` (the effect of `ale.setRAM(i, v)` /
`self.set_ram(i, v)` on the RAM array).  An out-of-range index writes
nothing; every write issued by the modelled code is in range. -/
def ramSet {n : Nat} (r : RamF n) (i v : Nat) : RamF n :=
  fun j => if (j : Nat) = i then v else r j

/-- Read cell `i` (the effect of `self.get_ram()[i]` / `ram[i]`).  All reads
issued by the modelled code are in range; out of range reads default to 0. -/
def ramGet {n : Nat} (r : RamF n) (i : Nat) : Nat :=
  if h : i < n then r ⟨i, h⟩ else 0

namespace FishingDerby

/-- Embedding of `alter_shark` from `src/hackatari/games/fishingderby.py`,
with the module-level global `SHARK_MODE` passed as the `mode` argument.
The four inner `if` blocks are sequential (not `elif`) in the source, and
in modes 3 and 4 `current_x_position` is read once before both branches;
the embedding mirrors that threading exactly. -/
def alter_shark (mode : Nat) (ram : RamF 128) : RamF 128 :=
  if 0 < mode then
    -- shark mode: no movement easy
    let r1 := if mode = 1 then ramSet ram 75 105 else ram
    -- shark mode: no movement hard
    let r2 := if mode = 2 then ramSet r1 75 25 else r1
    -- shark mode: teleport
    let r3 :=
      if mode = 3 then
        let current_x_position := ramGet r2 75
        let ra := if current_x_position = 100 then ramSet r2 75 25 else r2
        if current_x_position = 30 then ramSet ra 75 105 else ra
      else r2
    -- shark mode: speed mode
    let r4 :=
      if mode = 4 then
        let current_x_position := ramGet r3 75
        let ra := if current_x_position < 120 then ramSet r3 75 (current_x_position + 5) else r3
        if 120 < current_x_position then ramSet ra 75 1 else ra
      else r3
    r4
  else ram

/-- Loop body of fish mode 1 (`if self.get_ram()[69+i] > 86: self.set_ram(69+i, 44)`). -/
def fishBody1 (r : RamF 128) (i : Nat) : RamF 128 :=
  if 86 < ramGet r (69 + i) then ramSet r (69 + i) 44 else r

/-- Loop body of fish mode 2 (`if self.get_ram()[69+i] < 70: self.set_ram(69+i, 116)`). -/
def fishBody2 (r : RamF 128) (i : Nat) : RamF 128 :=
  if ramGet r (69 + i) < 70 then ramSet r (69 + i) 116 else r

/-- Loop body of fish mode 3: the second test re-reads the RAM after the
first conditional write, exactly as the source does. -/
def fishBody3 (r : RamF 128) (i : Nat) : RamF 128 :=
  let ra := if ramGet r (69 + i) < 70 then ramSet r (69 + i) 86 else r
  if 86 < ramGet ra (69 + i) then ramSet ra (69 + i) 70 else ra

/-- Embedding of `alter_fish` from `src/hackatari/games/fishingderby.py`,
with the global `FISH_MODE` passed as the `mode` argument.  Each mode's
`for i in range(6)` loop is a left fold of its body over `[0, …, 5]`. -/
def alter_fish (mode : Nat) (ram : RamF 128) : RamF 128 :=
  if 0 < mode then
    -- fish mode 1: fish are all on player's side
    let r1 := if mode = 1 then (List.range 6).foldl fishBody1 ram else ram
    -- fish mode 2: fish are all on enemy's side
    let r2 := if mode = 2 then (List.range 6).foldl fishBody2 r1 else r1
    -- fish mode 3: fish are always in the middle between player and enemy
    let r3 := if mode = 3 then (List.range 6).foldl fishBody3 r2 else r2
    r3
  else ram

/-- Tag for the python function objects appended to `step_modifs`. -/
inductive ModFunc where
  | fish
  | shark
deriving DecidableEq

/-- Value of `int(c)` for a single character: a decimal digit parses to its
value, anything else raises `ValueError` (modelled as `none`). -/
def charDigit (c : Char) : Option Nat :=
  if c.isDigit then some (c.toNat - '0'.toNat) else none

/-- Loop of `modif_funcs`: threads the `FISH_MODE` / `SHARK_MODE` globals
and the accumulated `step_modifs` / `reset_modifs` lists through the
`for mod in modifs` loop.  `mod_n = int(mod[-1])` is computed for every
string before the `startswith` tests; on an empty string (`IndexError`)
or a non-digit final character (`ValueError`) the whole call raises,
modelled as `none`. -/
def modif_funcs_loop :
    Nat → Nat → List ModFunc → List ModFunc → List (List Char) →
      Option (List ModFunc × List ModFunc × Nat × Nat)
  | fm, sm, step, reset, [] => some (step, reset, fm, sm)
  | fm, sm, step, reset, mod :: rest =>
    match mod.getLast? with
    | none => none
    | some c =>
      match charDigit c with
      | none => none
      | some mod_n =>
        if mod.head? = some 'f' then
          modif_funcs_loop mod_n sm (step ++ [ModFunc.fish]) reset rest
        else if mod.head? = some 's' then
          modif_funcs_loop fm mod_n (step ++ [ModFunc.shark]) reset rest
        else
          modif_funcs_loop fm sm step reset rest

/-- Embedding of `modif_funcs` from `src/hackatari/games/fishingderby.py`.
`fm` and `sm` are the values of the globals `FISH_MODE` and `SHARK_MODE`
on entry; the result carries `(step_modifs, reset_modifs, FISH_MODE,
SHARK_MODE)` on normal return and is `none` when the call raises. -/
def modif_funcs (modifs : List (List Char)) (fm sm : Nat) :
    Option (List ModFunc × List ModFunc × Nat × Nat) :=
  modif_funcs_loop fm sm [] [] modifs

/-- Analysis-side pure transition of cell 75 under `alter_shark` mode `m`. -/
def sharkStep (m v : Nat) : Nat :=
  if m = 1 then 105
  else if m = 2 then 25
  else if m = 3 then (if v = 100 then 25 else if v = 30 then 105 else v)
  else if m = 4 then (if v < 120 then v + 5 else if 120 < v then 1 else v)
  else v

/-- Analysis-side pure per-cell transition of fish mode 1. -/
def fishStep1 (v : Nat) : Nat := if 86 < v then 44 else v

/-- Analysis-side pure per-cell transition of fish mode 2. -/
def fishStep2 (v : Nat) : Nat := if v < 70 then 116 else v

/-- Analysis-side pure per-cell transition of fish mode 3 (the second test
sees the value written by the first, as in the source). -/
def fishStep3 (v : Nat) : Nat :=
  let v1 := if v < 70 then 86 else v
  if 86 < v1 then 70 else v1

/-- Analysis-side pure transition of each fish cell under mode `m`. -/
def fishStep (m v : Nat) : Nat :=
  if m = 1 then fishStep1 v
  else if m = 2 then fishStep2 v
  else if m = 3 then fishStep3 v
  else v

/-- Constant RAM holding 100 in every cell; concrete input for the shark
ramp-mode counterexample. -/
def ram100 : RamF 128 := fun _ => 100

/-- Constant RAM holding 115 in every cell. -/
def ram115 : RamF 128 := fun _ => 115

/-- Constant RAM holding 121 in every cell. -/
def ram121 : RamF 128 := fun _ => 121

/-- Constant RAM holding 30 in every cell. -/
def ram30 : RamF 128 := fun _ => 30

/-- Constant RAM holding 90 in every cell. -/
def ram90 : RamF 128 := fun _ => 90

/-- Constant RAM holding 80 in every cell. -/
def ram80 : RamF 128 := fun _ => 80

/-- Concrete modification-string list `["f3", "s2", "x1"]`. -/
def exampleModifs : List (List Char) := [['f', '3'], ['s', '2'], ['x', '1']]

/-- Concrete modification-string list `["a"]`: its only string ends in a
non-digit character, so `int(mod[-1])` raises `ValueError`. -/
def badModifs : List (List Char) := [['a']]

/-- Spec-side description of the `step_modifs` list built by `modif_funcs`:
one `alter_fish` per string starting with `'f'`, one `alter_shark` per
string starting with `'s'`, in input order, nothing for other strings. -/
def stepFuncs (modifs : List (List Char)) : List ModFunc :=
  modifs.filterMap fun mod =>
    if mod.head? = some 'f' then some ModFunc.fish
    else if mod.head? = some 's' then some ModFunc.shark
    else none

/-- Digit value of the last character of a modification string (0 if absent). -/
def lastDigit (mod : List Char) : Nat :=
  ((mod.getLast?).bind charDigit).getD 0

/-- Spec-side final value of the mode global for entity letter `letter`:
the digit of the last string starting with that letter, or the initial
value when there is none. -/
def finalMode (letter : Char) (modifs : List (List Char)) (init : Nat) : Nat :=
  modifs.foldl (fun acc mod => if mod.head? = some letter then lastDigit mod else acc) init

end FishingDerby

namespace RemGui

/-- One screen pixel as read from `ale.getScreenRGB()[y, x]`: a red, green,
blue channel triple.  `np.any(new_pixel != original_pixel)` is inequality
of the triples. -/
abbrev Pixel := Nat × Nat × Nat

/-- State of the wrapped emulator: the RAM array plus everything else the
emulator keeps (CPU registers, frame counter, screen buffer, …), which the
GUI never restores and which is therefore kept abstract. -/
structure AtariState (n : Nat) (H : Type) where
  ram : RamF n
  hidden : H

/-- The external environment collaborator: `step0` is the composite effect
of `self.env.step(0)` (emulator dynamics plus any installed RAM hacks) and
`getScreenRGB` reads the pixel at `[y, x]` of the current screen buffer.
Both are arbitrary: the scanner's properties hold for every machine. -/
structure Machine (n : Nat) (H : Type) where
  step0 : AtariState n H → AtariState n H
  getScreenRGB : AtariState n H → Nat → Nat → Pixel

variable {n : Nat} {H : Type}

/-- Effect of `ale.setRAM(i, v)` on the environment state. -/
def setRAM (s : AtariState n H) (i v : Nat) : AtariState n H :=
  { s with ram := ramSet s.ram i v }

/-- Embedding of `Renderer._set_ram(values)`: `for k, value in
enumerate(values): ale.setRAM(k, value)` — every cell is written back in
ascending index order. -/
def set_ram (s : AtariState n H) (values : RamF n) : AtariState n H :=
  (List.finRange n).foldl (fun t k => setRAM t k.val (values k)) s

/-- The probe values tried for each cell by `find_causative_ram`: the
source's inner loop is `for altered_value in [0]` ("adding values != 0
causes Atari to crash"). -/
def probe_values : List Nat := [0]

/-- Inner probe loop of `find_causative_ram` for a single cell `i`:
write the probe value, advance one no-op step, read the pixel, restore the
snapshot `ram0`, and stop at the first probe value whose pixel differs
from `orig` (the `break`).  Returns the resulting environment state and
whether `i` was appended to `candidate_cell_ids`. -/
def probeCell (M : Machine n H) (ram0 : RamF n) (orig : Pixel) (x y i : Nat) :
    List Nat → AtariState n H → AtariState n H × Bool
  | [], s => (s, false)
  | v :: vs, s =>
    if M.getScreenRGB (M.step0 (setRAM s i v)) y x ≠ orig then
      (set_ram (M.step0 (setRAM s i v)) ram0, true)
    else
      probeCell M ram0 orig x y i vs (set_ram (M.step0 (setRAM s i v)) ram0)

/-- Outer loop of `find_causative_ram` (`for i in tqdm(range(len(ram)))`),
starting at index `i` with `fuel` indices left to visit, accumulating
`candidate_cell_ids` in `acc`. -/
def scanCells (M : Machine n H) (ram0 : RamF n) (orig : Pixel) (x y : Nat) :
    Nat → Nat → AtariState n H → List Nat → AtariState n H × List Nat
  | _, 0, s, acc => (s, acc)
  | i, fuel + 1, s, acc =>
    scanCells M ram0 orig x y (i + 1) fuel
      (probeCell M ram0 orig x y i probe_values s).1
      (if (probeCell M ram0 orig x y i probe_values s).2 then acc ++ [i] else acc)

/-- Embedding of `Renderer.find_causative_ram(x, y)` from `src/rem_gui.py`:
snapshot the RAM, take one no-op step to materialise the reference pixel,
restore the snapshot, then scan every cell.  Returns the final environment
state together with `candidate_cell_ids`.  (GUI-only effects —
`self._render()`, `active_cell_idx`, the input string — touch no emulator
state and are not modelled.) -/
def find_causative_ram (M : Machine n H) (s0 : AtariState n H) (x y : Nat) :
    AtariState n H × List Nat :=
  scanCells M s0.ram (M.getScreenRGB (M.step0 s0) y x) x y 0 n
    (set_ram (M.step0 s0) s0.ram) []

/-- Environment state at which the scan starts probing cell `i`, for a scan
that began probing cell `i0` in state `s`: each earlier iteration left the
state produced by its own probe (RAM restored to `ram0`, emulator drift
kept). -/
def cellEntryFrom (M : Machine n H) (ram0 : RamF n) (orig : Pixel) (x y i0 : Nat)
    (s : AtariState n H) : Nat → AtariState n H
  | 0 => s
  | k + 1 =>
    (probeCell M ram0 orig x y (i0 + k) probe_values
      (cellEntryFrom M ram0 orig x y i0 s k)).1

/-- Environment state at which `find_causative_ram M s0 x y` starts probing
cell `i`. -/
def scanEntry (M : Machine n H) (s0 : AtariState n H) (x y i : Nat) : AtariState n H :=
  cellEntryFrom M s0.ram (M.getScreenRGB (M.step0 s0) y x) x y 0
    (set_ram (M.step0 s0) s0.ram) i

/-- Embedding of `Renderer._get_ram_value_at(idx)`. -/
def get_ram_value_at (s : AtariState n H) (idx : Fin n) : Nat := s.ram idx

/-- Embedding of `Renderer._set_ram_value_at(idx, value)`. -/
def set_ram_value_at (s : AtariState n H) (idx : Fin n) (value : Nat) : AtariState n H :=
  setRAM s (idx : Nat) value

/-- Embedding of `Renderer._increment_ram_value_at(idx)` (mousewheel up):
writes `min(value + 1, 255)`.  The value read by `_get_ram_value_at` is a
numpy `uint8` scalar, so `value + 1` wraps modulo 256 before the `min`
applies: a cell at 255 is written as `min(0, 255) = 0`, not clamped. -/
def increment_ram_value_at (s : AtariState n H) (idx : Fin n) : AtariState n H :=
  set_ram_value_at s idx (min ((get_ram_value_at s idx + 1) % 256) 255)

/-- Embedding of `Renderer._decrement_ram_value_at(idx)` (mousewheel down):
writes `max(value - 1, 0)`.  The value read is a numpy `uint8` scalar, so
`value - 1` wraps modulo 256 before the `max` applies; for a byte value
`v`, `(v + 255) % 256` is exactly `uint8` subtraction by one, and a cell
at 0 is written as `max(255, 0) = 255`, not clamped. -/
def decrement_ram_value_at (s : AtariState n H) (idx : Fin n) : AtariState n H :=
  set_ram_value_at s idx (max ((get_ram_value_at s idx + 255) % 256) 0)

/-- Embedding of the RETURN-key branch of `Renderer._handle_user_input`
once a non-empty digit string has been parsed: `new_cell_value =
int(self.current_active_cell_input)`; the write happens only `if
new_cell_value < 256`, otherwise the RAM is left untouched. -/
def handle_return_write (s : AtariState n H) (idx : Fin n) (new_cell_value : Nat) :
    AtariState n H :=
  if new_cell_value < 256 then set_ram_value_at s idx new_cell_value else s

/-- A one-cell machine used as a concrete scan witness: stepping does
nothing and the pixel at every coordinate displays cell 0. -/
def oneCellMachine : Machine 1 Unit where
  step0 := id
  getScreenRGB := fun s _ _ => (ramGet s.ram 0, 0, 0)

/-- Concrete one-cell start state holding 7. -/
def oneCellState : AtariState 1 Unit := { ram := fun _ => 7, hidden := () }

/-- Concrete two-cell state holding 255 in both cells, for the interactive
write-bounds witness. -/
def twoCellState : AtariState 2 Unit := { ram := fun _ => 255, hidden := () }

/-- Concrete cell index 0 of the two-cell state. -/
def twoCellIdx : Fin 2 := ⟨0, by norm_num⟩

/-- Concrete two-cell state holding 0 in both cells, for the wheel-down
boundary behaviour. -/
def zeroCellsState : AtariState 2 Unit := { ram := fun _ => 0, hidden := () }

/-- Concrete two-cell state holding 80 in both cells, for the in-band wheel
edits. -/
def midCellsState : AtariState 2 Unit := { ram := fun _ => 80, hidden := () }

end RemGui

/-! ### Basic lemmas about the RAM model -/

lemma ramGet_ramSet_self {n : Nat} (r : RamF n) (i v : Nat) :
    ramGet (ramSet r i v) i = if i < n then v else 0 := by
  unfold ramGet ramSet
  split <;> simp_all

lemma ramGet_ramSet_other {n : Nat} (r : RamF n) {i j : Nat} (v : Nat) (hij : j ≠ i) :
    ramGet (ramSet r i v) j = ramGet r j := by
  unfold ramGet ramSet
  split <;> simp [hij]

lemma ramGet_apply {n : Nat} (r : RamF n) (j : Fin n) : ramGet r (j : Nat) = r j := by
  simp [ramGet]

lemma ramF_ext {n : Nat} {r r' : RamF n} (h : ∀ j : Nat, ramGet r j = ramGet r' j) :
    r = r' := by
  funext j
  have hj := h (j : Nat)
  rwa [ramGet_apply, ramGet_apply] at hj

namespace FishingDerby

/-! ### Bridge lemmas: the patchers against their pure per-cell transitions -/

lemma alter_shark_get75 (m : Nat) (ram : RamF 128) :
    ramGet (alter_shark m ram) 75 = sharkStep m (ramGet ram 75) := by
  by_cases h0 : m = 0
  · subst h0; simp [alter_shark, sharkStep]
  by_cases h1 : m = 1
  · subst h1; simp [alter_shark, sharkStep, ramGet_ramSet_self]
  by_cases h2 : m = 2
  · subst h2; simp [alter_shark, sharkStep, ramGet_ramSet_self]
  by_cases h3 : m = 3
  · subst h3
    by_cases hc1 : ramGet ram 75 = 100
    · have hc2 : ¬ ramGet ram 75 = 30 := by omega
      simp [alter_shark, sharkStep, hc1, hc2, ramGet_ramSet_self]
    · by_cases hc2 : ramGet ram 75 = 30
      · simp [alter_shark, sharkStep, hc1, hc2, ramGet_ramSet_self]
      · simp [alter_shark, sharkStep, hc1, hc2]
  by_cases h4 : m = 4
  · subst h4
    by_cases hc1 : ramGet ram 75 < 120
    · have hc2 : ¬ 120 < ramGet ram 75 := by omega
      simp [alter_shark, sharkStep, hc1, hc2, ramGet_ramSet_self]
    · by_cases hc2 : 120 < ramGet ram 75
      · simp [alter_shark, sharkStep, hc1, hc2, ramGet_ramSet_self]
      · simp [alter_shark, sharkStep, hc1, hc2]
  · have hp : 0 < m := by omega
    simp [alter_shark, sharkStep, hp, h1, h2, h3, h4]

lemma alter_shark_get_ne (m : Nat) (ram : RamF 128) (j : Nat) (hj : j ≠ 75) :
    ramGet (alter_shark m ram) j = ramGet ram j := by
  by_cases h0 : m = 0
  · subst h0; simp [alter_shark]
  by_cases h1 : m = 1
  · subst h1; simp [alter_shark, ramGet_ramSet_other, hj]
  by_cases h2 : m = 2
  · subst h2; simp [alter_shark, ramGet_ramSet_other, hj]
  by_cases h3 : m = 3
  · subst h3
    simp only [alter_shark]
    norm_num
    split_ifs <;> simp [ramGet_ramSet_other, hj]
  by_cases h4 : m = 4
  · subst h4
    simp only [alter_shark]
    norm_num
    split_ifs <;> simp [ramGet_ramSet_other, hj]
  · have hp : 0 < m := by omega
    simp [alter_shark, hp, h1, h2, h3, h4]

lemma fishBody1_get_ne (r : RamF 128) (i j : Nat) (hj : j ≠ 69 + i) :
    ramGet (fishBody1 r i) j = ramGet r j := by
  unfold fishBody1
  split_ifs <;> simp [ramGet_ramSet_other, hj]

lemma fishBody2_get_ne (r : RamF 128) (i j : Nat) (hj : j ≠ 69 + i) :
    ramGet (fishBody2 r i) j = ramGet r j := by
  unfold fishBody2
  split_ifs <;> simp [ramGet_ramSet_other, hj]

lemma fishBody3_get_ne (r : RamF 128) (i j : Nat) (hj : j ≠ 69 + i) :
    ramGet (fishBody3 r i) j = ramGet r j := by
  by_cases hc1 : ramGet r (69 + i) < 70
  · simp only [fishBody3, hc1, if_true]
    split_ifs <;> simp [ramGet_ramSet_other, hj]
  · simp only [fishBody3, hc1, if_false]
    split_ifs <;> simp [ramGet_ramSet_other, hj]

lemma fishBody1_get_self (r : RamF 128) (i : Nat) (hi : i < 6) :
    ramGet (fishBody1 r i) (69 + i) = fishStep1 (ramGet r (69 + i)) := by
  have h : 69 + i < 128 := by omega
  unfold fishBody1 fishStep1
  split_ifs <;> simp_all [ramGet_ramSet_self]

lemma fishBody2_get_self (r : RamF 128) (i : Nat) (hi : i < 6) :
    ramGet (fishBody2 r i) (69 + i) = fishStep2 (ramGet r (69 + i)) := by
  have h : 69 + i < 128 := by omega
  unfold fishBody2 fishStep2
  split_ifs <;> simp_all [ramGet_ramSet_self]

lemma fishBody3_get_self (r : RamF 128) (i : Nat) (hi : i < 6) :
    ramGet (fishBody3 r i) (69 + i) = fishStep3 (ramGet r (69 + i)) := by
  have h : 69 + i < 128 := by omega
  by_cases hc1 : ramGet r (69 + i) < 70
  · simp only [fishBody3, fishStep3, hc1, if_true]
    split_ifs <;> simp_all [ramGet_ramSet_self]
  · simp only [fishBody3, fishStep3, hc1, if_false]
    split_ifs <;> simp_all [ramGet_ramSet_self]

lemma foldl_fishBody_get_ne {B : RamF 128 → Nat → RamF 128}
    (hne : ∀ r i j, j ≠ 69 + i → ramGet (B r i) j = ramGet r j)
    (L : List Nat) (r : RamF 128) (j : Nat) :
    (∀ i ∈ L, j ≠ 69 + i) → ramGet (L.foldl B r) j = ramGet r j := by
  induction L generalizing r with
  | nil => intro _; rfl
  | cons a L ih =>
      intro hj
      rw [List.foldl_cons, ih _ (fun i hi => hj i (List.mem_cons_of_mem a hi)),
        hne r a j (hj a (List.mem_cons_self a L))]

lemma foldl_fishBody_get_self {B : RamF 128 → Nat → RamF 128} {g : Nat → Nat}
    (hne : ∀ r i j, j ≠ 69 + i → ramGet (B r i) j = ramGet r j)
    (hself : ∀ r i, i < 6 → ramGet (B r i) (69 + i) = g (ramGet r (69 + i)))
    (L : List Nat) (r : RamF 128) (i : Nat) (hi : i < 6) :
    L.Nodup → i ∈ L → ramGet (L.foldl B r) (69 + i) = g (ramGet r (69 + i)) := by
  induction L generalizing r with
  | nil => intro _ hmem; cases hmem
  | cons a L ih =>
      intro hnd hmem
      rw [List.foldl_cons]
      rcases List.mem_cons.mp hmem with h | h
      · subst h
        have ha : i ∉ L := (List.nodup_cons.mp hnd).1
        rw [foldl_fishBody_get_ne hne L _ _ ?_, hself r i hi]
        intro i' hi' hcontra
        have : i' = i := by omega
        exact ha (this ▸ hi')
      · have hia : i ≠ a := by
          rintro rfl; exact (List.nodup_cons.mp hnd).1 h
        rw [ih _ (List.nodup_cons.mp hnd).2 h, hne r a _ (by omega)]

lemma alter_fish_get_ne (m : Nat) (ram : RamF 128) (j : Nat) (hj : j < 69 ∨ 74 < j) :
    ramGet (alter_fish m ram) j = ramGet ram j := by
  have hjj : ∀ i ∈ List.range 6, j ≠ 69 + i := by
    intro i hi
    have := List.mem_range.mp hi
    omega
  by_cases h0 : m = 0
  · subst h0; simp [alter_fish]
  by_cases h1 : m = 1
  · subst h1
    simp only [alter_fish]
    norm_num
    exact foldl_fishBody_get_ne fishBody1_get_ne (List.range 6) ram j hjj
  by_cases h2 : m = 2
  · subst h2
    simp only [alter_fish]
    norm_num
    exact foldl_fishBody_get_ne fishBody2_get_ne (List.range 6) ram j hjj
  by_cases h3 : m = 3
  · subst h3
    simp only [alter_fish]
    norm_num
    exact foldl_fishBody_get_ne fishBody3_get_ne (List.range 6) ram j hjj
  · have hp : 0 < m := by omega
    simp [alter_fish, hp, h1, h2, h3]

lemma alter_fish_get69 (m : Nat) (ram : RamF 128) (i : Nat) (hi : i < 6) :
    ramGet (alter_fish m ram) (69 + i) = fishStep m (ramGet ram (69 + i)) := by
  have hmem : i ∈ List.range 6 := List.mem_range.mpr hi
  have hnd : (List.range 6).Nodup := List.nodup_range 6
  by_cases h0 : m = 0
  · subst h0; simp [alter_fish, fishStep]
  by_cases h1 : m = 1
  · subst h1
    simp only [alter_fish, fishStep]
    norm_num
    exact foldl_fishBody_get_self fishBody1_get_ne fishBody1_get_self
      (List.range 6) ram i hi hnd hmem
  by_cases h2 : m = 2
  · subst h2
    simp only [alter_fish, fishStep]
    norm_num
    exact foldl_fishBody_get_self fishBody2_get_ne fishBody2_get_self
      (List.range 6) ram i hi hnd hmem
  by_cases h3 : m = 3
  · subst h3
    simp only [alter_fish, fishStep]
    norm_num
    exact foldl_fishBody_get_self fishBody3_get_ne fishBody3_get_self
      (List.range 6) ram i hi hnd hmem
  · have hp : 0 < m := by omega
    simp [alter_fish, fishStep, hp, h1, h2, h3]

lemma sharkStep_four (v : Nat) :
    sharkStep 4 v = if v < 120 then v + 5 else if 120 < v then 1 else v := by
  simp [sharkStep]

lemma fishStep_three (v : Nat) :
    fishStep 3 v =
      if 86 < (if v < 70 then 86 else v) then 70 else (if v < 70 then 86 else v) := by
  simp [fishStep, fishStep3]

lemma fishStep_fishStep (m v : Nat) : fishStep m (fishStep m v) = fishStep m v := by
  simp only [fishStep, fishStep1, fishStep2, fishStep3]
  split_ifs <;> omega

lemma sharkStep_sharkStep (m v : Nat) (hm : m ≠ 4) :
    sharkStep m (sharkStep m v) = sharkStep m v := by
  simp only [sharkStep]
  split_ifs <;> omega

lemma alter_shark_idem (m : Nat) (ram : RamF 128) (hm : m ≠ 4) :
    alter_shark m (alter_shark m ram) = alter_shark m ram := by
  apply ramF_ext
  intro j
  by_cases hj : j = 75
  · subst hj
    rw [alter_shark_get75, alter_shark_get75, sharkStep_sharkStep m _ hm]
  · exact alter_shark_get_ne m _ j hj

lemma alter_fish_idem (m : Nat) (ram : RamF 128) :
    alter_fish m (alter_fish m ram) = alter_fish m ram := by
  apply ramF_ext
  intro j
  by_cases hj : 69 ≤ j ∧ j ≤ 74
  · obtain ⟨i, hi6, hji⟩ : ∃ i, i < 6 ∧ j = 69 + i := ⟨j - 69, by omega, by omega⟩
    rw [hji, alter_fish_get69 m _ i hi6, alter_fish_get69 m _ i hi6, fishStep_fishStep]
  · exact alter_fish_get_ne m _ j (by omega)

lemma alter_comm (ms mf : Nat) (ram : RamF 128) :
    alter_fish mf (alter_shark ms ram) = alter_shark ms (alter_fish mf ram) := by
  apply ramF_ext
  intro j
  by_cases hj75 : j = 75
  · subst hj75
    rw [alter_fish_get_ne mf _ 75 (by omega), alter_shark_get75, alter_shark_get75,
      alter_fish_get_ne mf _ 75 (by omega)]
  by_cases hjf : 69 ≤ j ∧ j ≤ 74
  · obtain ⟨i, hi6, hji⟩ : ∃ i, i < 6 ∧ j = 69 + i := ⟨j - 69, by omega, by omega⟩
    rw [hji, alter_fish_get69 mf _ i hi6, alter_shark_get_ne ms _ _ (by omega),
      alter_shark_get_ne ms _ _ (by omega), alter_fish_get69 mf _ i hi6]
  · rw [alter_fish_get_ne mf _ j (by omega), alter_shark_get_ne ms _ j hj75,
      alter_shark_get_ne ms _ j hj75, alter_fish_get_ne mf _ j (by omega)]

lemma modif_funcs_loop_spec :
    ∀ (modifs : List (List Char)) (fm sm : Nat) (step reset : List ModFunc),
      (∀ mod ∈ modifs, ((mod.getLast?).bind charDigit).isSome) →
      modif_funcs_loop fm sm step reset modifs =
        some (step ++ stepFuncs modifs, reset,
          finalMode 'f' modifs fm, finalMode 's' modifs sm) := by
  intro modifs
  induction modifs with
  | nil =>
      intro fm sm step reset _
      simp [modif_funcs_loop, stepFuncs, finalMode]
  | cons mod rest ih =>
      intro fm sm step reset h
      have hmod := h mod (List.mem_cons_self _ _)
      obtain ⟨c, hc⟩ : ∃ c, mod.getLast? = some c := by
        cases hgl : mod.getLast? with
        | none => rw [hgl] at hmod; simp at hmod
        | some c => exact ⟨c, rfl⟩
      rw [hc] at hmod
      obtain ⟨d, hd⟩ : ∃ d, charDigit c = some d := by
        simp only [Option.some_bind] at hmod
        exact Option.isSome_iff_exists.mp hmod
      have hld : lastDigit mod = d := by simp [lastDigit, hc, hd]
      have hrest := fun mod' hm => h mod' (List.mem_cons_of_mem _ hm)
      simp only [modif_funcs_loop, hc, hd]
      by_cases hf : mod.head? = some 'f'
      · rw [if_pos hf, ih _ _ _ _ hrest]
        have h1 : stepFuncs (mod :: rest) = ModFunc.fish :: stepFuncs rest := by
          simp [stepFuncs, hf]
        have h2 : finalMode 'f' (mod :: rest) fm = finalMode 'f' rest (lastDigit mod) := by
          simp [finalMode, hf]
        have h3 : finalMode 's' (mod :: rest) sm = finalMode 's' rest sm := by
          simp [finalMode, hf]
        rw [h1, h2, h3, hld]
        simp
      · rw [if_neg hf]
        by_cases hs : mod.head? = some 's'
        · rw [if_pos hs, ih _ _ _ _ hrest]
          have h1 : stepFuncs (mod :: rest) = ModFunc.shark :: stepFuncs rest := by
            simp [stepFuncs, hf, hs]
          have h2 : finalMode 'f' (mod :: rest) fm = finalMode 'f' rest fm := by
            simp [finalMode, hs]
          have h3 : finalMode 's' (mod :: rest) sm = finalMode 's' rest (lastDigit mod) := by
            simp [finalMode, hs]
          rw [h1, h2, h3, hld]
          simp
        · rw [if_neg hs, ih _ _ _ _ hrest]
          have h1 : stepFuncs (mod :: rest) = stepFuncs rest := by
            simp [stepFuncs, hf, hs]
          have h2 : finalMode 'f' (mod :: rest) fm = finalMode 'f' rest fm := by
            simp [finalMode, hf]
          have h3 : finalMode 's' (mod :: rest) sm = finalMode 's' rest sm := by
            simp [finalMode, hs]
          rw [h1, h2, h3]

end FishingDerby

namespace RemGui

/-! ### Lemmas about the scanner's restore and probe loops -/

variable {n : Nat} {H : Type}

lemma foldl_setRAM_ram (values : RamF n) (L : List (Fin n)) (s : AtariState n H) (j : Fin n) :
    ((L.foldl (fun t k => setRAM t k.val (values k)) s).ram) j =
      if j ∈ L then values j else s.ram j := by
  induction L generalizing s with
  | nil => simp
  | cons k L ih =>
      rw [List.foldl_cons, ih]
      by_cases hL : j ∈ L
      · simp [hL]
      · by_cases hk : j = k
        · subst hk; simp [hL, setRAM, ramSet]
        · have hv : (j : Nat) ≠ (k : Nat) := fun hc => hk (Fin.ext hc)
          simp [hL, hk, setRAM, ramSet, hv]

lemma set_ram_ram (s : AtariState n H) (values : RamF n) : (set_ram s values).ram = values := by
  funext j
  rw [set_ram, foldl_setRAM_ram]
  simp [List.mem_finRange]

lemma probeCell_fst_ram (M : Machine n H) (ram0 : RamF n) (orig : Pixel) (x y i : Nat)
    (vs : List Nat) :
    ∀ (s : AtariState n H), s.ram = ram0 → (probeCell M ram0 orig x y i vs s).1.ram = ram0 := by
  induction vs with
  | nil => intro s hs; simpa [probeCell] using hs
  | cons v vs ih =>
      intro s hs
      simp only [probeCell]
      split_ifs
      · exact set_ram_ram _ _
      · exact ih _ (set_ram_ram _ _)

lemma probeCell_zero_hit (M : Machine n H) (ram0 : RamF n) (orig : Pixel) (x y i : Nat)
    (s : AtariState n H) :
    (probeCell M ram0 orig x y i probe_values s).2 = true ↔
      M.getScreenRGB (M.step0 (setRAM s i 0)) y x ≠ orig := by
  by_cases h : M.getScreenRGB (M.step0 (setRAM s i 0)) y x = orig <;>
    simp [probe_values, probeCell, h]

lemma scanCells_fst_ram (M : Machine n H) (ram0 : RamF n) (orig : Pixel) (x y : Nat) :
    ∀ (fuel i : Nat) (s : AtariState n H) (acc : List Nat), s.ram = ram0 →
      (scanCells M ram0 orig x y i fuel s acc).1.ram = ram0 := by
  intro fuel
  induction fuel with
  | zero => intro i s acc hs; simpa [scanCells] using hs
  | succ fuel ih =>
      intro i s acc hs
      simp only [scanCells]
      exact ih _ _ _ (probeCell_fst_ram M ram0 orig x y i probe_values s hs)

lemma cellEntryFrom_shift (M : Machine n H) (ram0 : RamF n) (orig : Pixel) (x y i0 : Nat)
    (s : AtariState n H) :
    ∀ k, cellEntryFrom M ram0 orig x y i0 s (k + 1) =
      cellEntryFrom M ram0 orig x y (i0 + 1)
        ((probeCell M ram0 orig x y i0 probe_values s).1) k := by
  intro k
  induction k with
  | zero => rfl
  | succ k ih =>
      have hidx : i0 + (k + 1) = i0 + 1 + k := by omega
      show (probeCell M ram0 orig x y (i0 + (k + 1)) probe_values
        (cellEntryFrom M ram0 orig x y i0 s (k + 1))).1 = _
      rw [ih, hidx]
      rfl

lemma cellEntryFrom_ram (M : Machine n H) (ram0 : RamF n) (orig : Pixel) (x y i0 : Nat) :
    ∀ (k : Nat) (s : AtariState n H), s.ram = ram0 →
      (cellEntryFrom M ram0 orig x y i0 s k).ram = ram0 := by
  intro k
  induction k with
  | zero => intro s hs; exact hs
  | succ k ih =>
      intro s hs
      exact probeCell_fst_ram M ram0 orig x y (i0 + k) probe_values _ (ih s hs)

lemma mem_scanCells (M : Machine n H) (ram0 : RamF n) (orig : Pixel) (x y : Nat) :
    ∀ (fuel i0 : Nat) (s : AtariState n H) (acc : List Nat) (j : Nat),
      j ∈ (scanCells M ram0 orig x y i0 fuel s acc).2 ↔
        j ∈ acc ∨ (i0 ≤ j ∧ j < i0 + fuel ∧
          (probeCell M ram0 orig x y j probe_values
            (cellEntryFrom M ram0 orig x y i0 s (j - i0))).2 = true) := by
  intro fuel
  induction fuel with
  | zero =>
      intro i0 s acc j
      simp only [scanCells]
      constructor
      · exact Or.inl
      · rintro (h | ⟨h1, h2, _⟩)
        · exact h
        · omega
  | succ fuel ih =>
      intro i0 s acc j
      simp only [scanCells]
      rw [ih]
      by_cases hji : j = i0
      · subst hji
        by_cases hhit : (probeCell M ram0 orig x y j probe_values s).2 = true
        · rw [if_pos hhit]
          constructor
          · intro _
            refine Or.inr ⟨Nat.le_refl _, by omega, ?_⟩
            rw [Nat.sub_self]
            exact hhit
          · intro _
            exact Or.inl (List.mem_append_right _ (List.mem_singleton_self _))
        · rw [if_neg hhit]
          constructor
          · rintro (h | ⟨h1, _, _⟩)
            · exact Or.inl h
            · omega
          · rintro (h | ⟨_, _, h3⟩)
            · exact Or.inl h
            · rw [Nat.sub_self] at h3
              exact absurd h3 hhit
      · have hmem : j ∈ (if (probeCell M ram0 orig x y i0 probe_values s).2 = true
            then acc ++ [i0] else acc) ↔ j ∈ acc := by
          split_ifs <;> simp [List.mem_append, hji]
        rw [hmem]
        by_cases hlt : i0 + 1 ≤ j
        · have hsub : j - i0 = (j - (i0 + 1)) + 1 := by omega
          have hcef : cellEntryFrom M ram0 orig x y i0 s (j - i0) =
              cellEntryFrom M ram0 orig x y (i0 + 1)
                ((probeCell M ram0 orig x y i0 probe_values s).1) (j - (i0 + 1)) := by
            rw [hsub, cellEntryFrom_shift]
          rw [hcef]
          constructor
          · rintro (h | ⟨h1, h2, h3⟩)
            · exact Or.inl h
            · exact Or.inr ⟨by omega, by omega, h3⟩
          · rintro (h | ⟨h1, h2, h3⟩)
            · exact Or.inl h
            · exact Or.inr ⟨by omega, by omega, h3⟩
        · constructor
          · rintro (h | ⟨h1, _, _⟩)
            · exact Or.inl h
            · omega
          · rintro (h | ⟨h1, _, _⟩)
            · exact Or.inl h
            · omega

lemma scanCells_sorted_from (M : Machine n H) (ram0 : RamF n) (orig : Pixel) (x y : Nat) :
    ∀ (fuel i0 : Nat) (s : AtariState n H) (acc : List Nat),
      acc.Sorted (· < ·) → (∀ j ∈ acc, j < i0) →
      ((scanCells M ram0 orig x y i0 fuel s acc).2).Sorted (· < ·) := by
  intro fuel
  induction fuel with
  | zero => intro i0 s acc hs _; simpa [scanCells] using hs
  | succ fuel ih =>
      intro i0 s acc hs hb
      simp only [scanCells]
      by_cases hhit : (probeCell M ram0 orig x y i0 probe_values s).2 = true
      · rw [if_pos hhit]
        apply ih
        · refine List.pairwise_append.mpr ⟨hs, by simp, ?_⟩
          intro a ha b hb'
          rw [List.mem_singleton] at hb'
          subst hb'
          exact hb a ha
        · intro j hj
          rcases List.mem_append.mp hj with h | h
          · have := hb j h; omega
          · rw [List.mem_singleton] at h; omega
      · rw [if_neg hhit]
        apply ih _ _ _ hs
        intro j hj
        have := hb j hj
        omega

end RemGui

/-! ### Claim theorems -/

namespace FishingDerby

/-- Claim C4: in the shark ramp mode (`SHARK_MODE = 4`), for every current
value `v` of cell 75: if `v < 120` the next value is `v + 5` and never
exceeds 255; if `v > 120` the next value is exactly 1. -/
theorem shark_speed_mode_ramp (ram : RamF 128) :
    (ramGet ram 75 < 120 →
      ramGet (alter_shark 4 ram) 75 = ramGet ram 75 + 5 ∧
      ramGet (alter_shark 4 ram) 75 ≤ 255) ∧
    (120 < ramGet ram 75 → ramGet (alter_shark 4 ram) 75 = 1) := by
  constructor
  · intro h
    rw [alter_shark_get75, sharkStep_four, if_pos h]
    exact ⟨rfl, by omega⟩
  · intro h
    rw [alter_shark_get75, sharkStep_four,
      if_neg (by omega : ¬ ramGet ram 75 < 120), if_pos h]

/-- Claim C4 witness: cell-75 value 115 ramps to 120 and value 121 resets
to 1. -/
theorem shark_speed_mode_ramp_witness :
    ramGet ram115 75 < 120 ∧ ramGet (alter_shark 4 ram115) 75 = 120 ∧
    120 < ramGet ram121 75 ∧ ramGet (alter_shark 4 ram121) 75 = 1 :=
  ⟨by decide, ((shark_speed_mode_ramp ram115).1 (by decide)).1.trans (by decide),
    by decide, (shark_speed_mode_ramp ram121).2 (by decide)⟩

/-- Claim C5: in the shark teleport mode (`SHARK_MODE = 3`), cell-75 value
100 is rewritten to 25, value 30 is rewritten to 105, and any other value
leaves the RAM untouched. -/
theorem shark_teleport_mode (ram : RamF 128) :
    (ramGet ram 75 = 100 → ramGet (alter_shark 3 ram) 75 = 25) ∧
    (ramGet ram 75 = 30 → ramGet (alter_shark 3 ram) 75 = 105) ∧
    (ramGet ram 75 ≠ 100 → ramGet ram 75 ≠ 30 → alter_shark 3 ram = ram) := by
  refine ⟨?_, ?_, ?_⟩
  · intro h
    rw [alter_shark_get75]
    simp [sharkStep, h]
  · intro h
    rw [alter_shark_get75]
    simp [sharkStep, h]
  · intro h100 h30
    simp [alter_shark, h100, h30]

/-- Claim C5 witness: the two sentinel values teleport and a third value
leaves the RAM unchanged. -/
theorem shark_teleport_mode_witness :
    ramGet ram100 75 = 100 ∧ ramGet (alter_shark 3 ram100) 75 = 25 ∧
    ramGet ram30 75 = 30 ∧ ramGet (alter_shark 3 ram30) 75 = 105 ∧
    ramGet ram115 75 ≠ 100 ∧ ramGet ram115 75 ≠ 30 ∧ alter_shark 3 ram115 = ram115 :=
  ⟨by decide, (shark_teleport_mode ram100).1 (by decide), by decide,
    (shark_teleport_mode ram30).2.1 (by decide), by decide, by decide,
    (shark_teleport_mode ram115).2.2 (by decide) (by decide)⟩

/-- Claim C6: in fish mode 3 ("always in the middle"), each of the six fish
cells 69..74 with a value above 86 becomes 70, a value below 70 becomes 86,
and values in the band [70, 86] are unchanged. -/
theorem fish_middle_mode_clamp (ram : RamF 128) (i : Nat) (hi : i < 6) :
    (86 < ramGet ram (69 + i) → ramGet (alter_fish 3 ram) (69 + i) = 70) ∧
    (ramGet ram (69 + i) < 70 → ramGet (alter_fish 3 ram) (69 + i) = 86) ∧
    (70 ≤ ramGet ram (69 + i) → ramGet ram (69 + i) ≤ 86 →
      ramGet (alter_fish 3 ram) (69 + i) = ramGet ram (69 + i)) := by
  refine ⟨?_, ?_, ?_⟩
  · intro h
    rw [alter_fish_get69 3 ram i hi, fishStep_three,
      if_neg (by omega : ¬ ramGet ram (69 + i) < 70), if_pos h]
  · intro h
    rw [alter_fish_get69 3 ram i hi, fishStep_three, if_pos h,
      if_neg (by decide : ¬((86 : Nat) < 86))]
  · intro h1 h2
    rw [alter_fish_get69 3 ram i hi, fishStep_three,
      if_neg (by omega : ¬ ramGet ram (69 + i) < 70),
      if_neg (by omega : ¬ 86 < ramGet ram (69 + i))]

/-- Claim C6 witness: fish cell 69 moves from 90 to 70, from 30 to 86, and
stays at 80. -/
theorem fish_middle_mode_clamp_witness :
    (0 : Nat) < 6 ∧
    86 < ramGet ram90 (69 + 0) ∧ ramGet (alter_fish 3 ram90) (69 + 0) = 70 ∧
    ramGet ram30 (69 + 0) < 70 ∧ ramGet (alter_fish 3 ram30) (69 + 0) = 86 ∧
    70 ≤ ramGet ram80 (69 + 0) ∧ ramGet ram80 (69 + 0) ≤ 86 ∧
    ramGet (alter_fish 3 ram80) (69 + 0) = ramGet ram80 (69 + 0) :=
  ⟨by decide, by decide, (fish_middle_mode_clamp ram90 0 (by decide)).1 (by decide),
    by decide, (fish_middle_mode_clamp ram30 0 (by decide)).2.1 (by decide),
    by decide, by decide,
    (fish_middle_mode_clamp ram80 0 (by decide)).2.2 (by decide) (by decide)⟩

/-- Claim C3 counterexample: the shark ramp mode (`SHARK_MODE = 4`) is not
idempotent: starting from cell-75 value 100, one application yields 105 and
a second application yields 110. -/
theorem shark_ramp_not_idempotent :
    alter_shark 4 (alter_shark 4 ram100) ≠ alter_shark 4 ram100 := by
  intro h
  have h75 : ramGet (alter_shark 4 (alter_shark 4 ram100)) 75 =
      ramGet (alter_shark 4 ram100) 75 := by rw [h]
  have hL : ramGet (alter_shark 4 (alter_shark 4 ram100)) 75 = 110 := by decide
  have hR : ramGet (alter_shark 4 ram100) 75 = 105 := by decide
  omega

/-- Claim C3 (amended): applying a patcher twice with the same mode equals
applying it once for every fish mode and for every shark mode except the
ramp mode 4, which is not idempotent. -/
theorem patchers_idempotent_except_ramp :
    (∀ (m : Nat) (ram : RamF 128), m ≠ 4 →
      alter_shark m (alter_shark m ram) = alter_shark m ram) ∧
    (∀ (m : Nat) (ram : RamF 128),
      alter_fish m (alter_fish m ram) = alter_fish m ram) :=
  ⟨alter_shark_idem, alter_fish_idem⟩

/-- Claim C3 witness: idempotence at shark mode 1 and fish mode 3 on a
concrete RAM. -/
theorem patchers_idempotent_except_ramp_witness :
    (1 : Nat) ≠ 4 ∧
    alter_shark 1 (alter_shark 1 ram100) = alter_shark 1 ram100 ∧
    alter_fish 3 (alter_fish 3 ram100) = alter_fish 3 ram100 :=
  ⟨by decide, patchers_idempotent_except_ramp.1 1 ram100 (by decide),
    patchers_idempotent_except_ramp.2 3 ram100⟩

/-- Claim C7: the shark and fish patchers commute for every pair of modes
and every RAM, the shark patcher writes only index 75, and the fish patcher
writes only indices 69..74. -/
theorem patchers_commute_and_disjoint :
    (∀ (ms mf : Nat) (ram : RamF 128),
      alter_fish mf (alter_shark ms ram) = alter_shark ms (alter_fish mf ram)) ∧
    (∀ (m : Nat) (ram : RamF 128) (j : Nat), j ≠ 75 →
      ramGet (alter_shark m ram) j = ramGet ram j) ∧
    (∀ (m : Nat) (ram : RamF 128) (j : Nat), j < 69 ∨ 74 < j →
      ramGet (alter_fish m ram) j = ramGet ram j) :=
  ⟨alter_comm, alter_shark_get_ne, alter_fish_get_ne⟩

/-- Claim C7 witness: commutation and footprint facts instantiated on a
concrete RAM and cell 0. -/
theorem patchers_commute_and_disjoint_witness :
    alter_fish 3 (alter_shark 4 ram100) = alter_shark 4 (alter_fish 3 ram100) ∧
    (0 : Nat) ≠ 75 ∧ ramGet (alter_shark 4 ram100) 0 = ramGet ram100 0 ∧
    ((0 : Nat) < 69 ∨ 74 < (0 : Nat)) ∧ ramGet (alter_fish 3 ram100) 0 = ramGet ram100 0 :=
  ⟨patchers_commute_and_disjoint.1 4 3 ram100, by decide,
    patchers_commute_and_disjoint.2.1 4 ram100 0 (by decide), by decide,
    patchers_commute_and_disjoint.2.2 3 ram100 0 (by decide)⟩

/-- Claim C9 counterexample: on the list `["a"]` — whose string starts with
neither `'f'` nor `'s'` — `int(mod[-1])` raises `ValueError` before the
`startswith` tests, so `modif_funcs` returns nothing at all (in particular
no empty `reset_modifs` list). -/
theorem modif_funcs_non_digit_raises : modif_funcs badModifs 0 0 = none := by decide

/-- Claim C9 (amended): for every list of modification strings each of which
is nonempty and ends in a decimal digit, `modif_funcs` returns an empty
`reset_modifs` list, a `step_modifs` list holding `alter_fish` for each
string starting with `'f'` and `alter_shark` for each string starting with
`'s'` in input order and nothing for other strings, and final `FISH_MODE` /
`SHARK_MODE` equal to the last digit of the last `'f'`- / `'s'`-string
(or the initial value when there is none). -/
theorem modif_funcs_characterization (modifs : List (List Char)) (fm sm : Nat)
    (h : ∀ mod ∈ modifs, ((mod.getLast?).bind charDigit).isSome) :
    modif_funcs modifs fm sm =
      some (stepFuncs modifs, [], finalMode 'f' modifs fm, finalMode 's' modifs sm) := by
  rw [modif_funcs, modif_funcs_loop_spec modifs fm sm [] [] h]
  simp

/-- Claim C9 witness: `["f3", "s2", "x1"]` yields step functions
`[alter_fish, alter_shark]`, no reset functions, `FISH_MODE = 3` and
`SHARK_MODE = 2`. -/
theorem modif_funcs_characterization_witness :
    (∀ mod ∈ exampleModifs, ((mod.getLast?).bind charDigit).isSome) ∧
    modif_funcs exampleModifs 0 0 =
      some (stepFuncs exampleModifs, [], finalMode 'f' exampleModifs 0,
        finalMode 's' exampleModifs 0) :=
  ⟨by decide, modif_funcs_characterization exampleModifs 0 0 (by decide)⟩

end FishingDerby

namespace RemGui

variable {n : Nat} {H : Type}

/-- Claim C2: after `find_causative_ram(x, y)` completes, every cell of the
environment's RAM equals the value it had in the snapshot captured before
the call — the scan leaks no memory mutation. -/
theorem find_causative_ram_restores_ram (M : Machine n H) (s0 : AtariState n H) (x y : Nat) :
    (find_causative_ram M s0 x y).1.ram = s0.ram := by
  show (scanCells M s0.ram (M.getScreenRGB (M.step0 s0) y x) x y 0 n
    (set_ram (M.step0 s0) s0.ram) []).1.ram = s0.ram
  exact scanCells_fst_ram M s0.ram _ x y n 0 _ [] (set_ram_ram _ _)

/-- Claim C1: for every machine and start state, cell index `i < n` is in
`candidate_cell_ids` iff writing probe value 0 to cell `i` of the state the
scan reached for `i` (whose RAM is exactly the snapshot) and advancing one
no-op step gives a pixel at `(x, y)` different from the reference pixel
(one no-op step from the unaltered snapshot); and 0 is the only probe value
the scan ever writes. -/
theorem mem_find_causative_ram_iff (M : Machine n H) (s0 : AtariState n H) (x y i : Nat)
    (hi : i < n) :
    (i ∈ (find_causative_ram M s0 x y).2 ↔
      M.getScreenRGB (M.step0 (setRAM (scanEntry M s0 x y i) i 0)) y x ≠
        M.getScreenRGB (M.step0 s0) y x) ∧
    (scanEntry M s0 x y i).ram = s0.ram ∧
    probe_values = [0] := by
  refine ⟨?_, cellEntryFrom_ram M s0.ram _ x y 0 i _ (set_ram_ram _ _), rfl⟩
  show i ∈ (scanCells M s0.ram (M.getScreenRGB (M.step0 s0) y x) x y 0 n
    (set_ram (M.step0 s0) s0.ram) []).2 ↔ _
  rw [mem_scanCells]
  constructor
  · rintro (h | ⟨_, _, h3⟩)
    · cases h
    · rw [probeCell_zero_hit] at h3
      simpa [scanEntry] using h3
  · intro hdiff
    refine Or.inr ⟨Nat.zero_le _, by omega, ?_⟩
    rw [probeCell_zero_hit]
    simpa [scanEntry] using hdiff

/-- Claim C1 witness: on a one-cell machine whose pixel displays cell 0,
cell 0 is a candidate exactly when zeroing it changes the pixel. -/
theorem mem_find_causative_ram_iff_witness :
    0 < 1 ∧
    ((0 ∈ (find_causative_ram oneCellMachine oneCellState 0 0).2 ↔
      oneCellMachine.getScreenRGB
          (oneCellMachine.step0 (setRAM (scanEntry oneCellMachine oneCellState 0 0 0) 0 0)) 0 0 ≠
        oneCellMachine.getScreenRGB (oneCellMachine.step0 oneCellState) 0 0) ∧
    (scanEntry oneCellMachine oneCellState 0 0 0).ram = oneCellState.ram ∧
    probe_values = [0]) :=
  ⟨by decide, mem_find_causative_ram_iff oneCellMachine oneCellState 0 0 0 (by decide)⟩

/-- Claim C10: after every invocation of `find_causative_ram`, the candidate
cell list — rebuilt from empty at the start of the scan — is strictly
increasing and duplicate-free. -/
theorem find_causative_ram_candidates_sorted (M : Machine n H) (s0 : AtariState n H)
    (x y : Nat) :
    ((find_causative_ram M s0 x y).2).Sorted (· < ·) ∧
    ((find_causative_ram M s0 x y).2).Nodup := by
  have hs : ((find_causative_ram M s0 x y).2).Sorted (· < ·) := by
    show ((scanCells M s0.ram (M.getScreenRGB (M.step0 s0) y x) x y 0 n
      (set_ram (M.step0 s0) s0.ram) []).2).Sorted (· < ·)
    exact scanCells_sorted_from M s0.ram _ x y n 0 _ [] (by simp) (by simp)
  exact ⟨hs, hs.nodup⟩

/-- Claim C8 counterexample: the wheel edits do not clamp at the
boundaries.  The value read is a numpy `uint8`, so on a cell at 255 the
mousewheel increment writes `min((255 + 1) mod 256, 255) = 0` instead of
clamping at 255, and on a cell at 0 the mousewheel decrement writes
`max((0 - 1) mod 256, 0) = 255` instead of clamping at 0. -/
theorem wheel_edits_wrap_at_bounds :
    (increment_ram_value_at twoCellState twoCellIdx).ram twoCellIdx = 0 ∧
    (decrement_ram_value_at zeroCellsState twoCellIdx).ram twoCellIdx = 255 := by
  decide

/-- Claim C8 (amended): every write issued through the interactive editing
interface keeps the written value in [0, 255], and a typed value of 256 or
more is rejected without any memory mutation; but the mousewheel edits wrap
rather than clamp at the boundaries: away from the boundary the increment
writes `value + 1` and the decrement `value - 1`, while a cell at 255
wheels up to 0 and a cell at 0 wheels down to 255 (the `uint8` read wraps
before the `min`/`max` applies). -/
theorem interactive_writes_in_range (s : AtariState n H) (idx : Fin n) (v : Nat)
    (hram : ∀ j : Fin n, s.ram j ≤ 255) :
    (∀ j : Fin n, (increment_ram_value_at s idx).ram j ≤ 255) ∧
    (s.ram idx < 255 → (increment_ram_value_at s idx).ram idx = s.ram idx + 1) ∧
    (s.ram idx = 255 → (increment_ram_value_at s idx).ram idx = 0) ∧
    (∀ j : Fin n, (decrement_ram_value_at s idx).ram j ≤ 255) ∧
    (0 < s.ram idx → (decrement_ram_value_at s idx).ram idx = s.ram idx - 1) ∧
    (s.ram idx = 0 → (decrement_ram_value_at s idx).ram idx = 255) ∧
    (∀ j : Fin n, (handle_return_write s idx v).ram j ≤ 255) ∧
    (256 ≤ v → handle_return_write s idx v = s) := by
  refine ⟨?_, ?_, ?_, ?_, ?_, ?_, ?_, ?_⟩
  · intro j
    by_cases hj : (j : Nat) = (idx : Nat)
    · simp [increment_ram_value_at, set_ram_value_at, setRAM, ramSet, get_ram_value_at, hj]
    · simp [increment_ram_value_at, set_ram_value_at, setRAM, ramSet, get_ram_value_at, hj]
      exact hram j
  · intro h
    simp [increment_ram_value_at, set_ram_value_at, setRAM, ramSet, get_ram_value_at]
    omega
  · intro h
    simp [increment_ram_value_at, set_ram_value_at, setRAM, ramSet, get_ram_value_at, h]
  · intro j
    by_cases hj : (j : Nat) = (idx : Nat)
    · simp [decrement_ram_value_at, set_ram_value_at, setRAM, ramSet, get_ram_value_at, hj]
      omega
    · simp [decrement_ram_value_at, set_ram_value_at, setRAM, ramSet, get_ram_value_at, hj]
      exact hram j
  · intro h
    have hidx := hram idx
    simp [decrement_ram_value_at, set_ram_value_at, setRAM, ramSet, get_ram_value_at]
    omega
  · intro h
    simp [decrement_ram_value_at, set_ram_value_at, setRAM, ramSet, get_ram_value_at, h]
  · intro j
    by_cases hv : v < 256
    · rw [handle_return_write, if_pos hv]
      by_cases hj : (j : Nat) = (idx : Nat)
      · simp [set_ram_value_at, setRAM, ramSet, hj]
        omega
      · simp [set_ram_value_at, setRAM, ramSet, hj]
        exact hram j
    · rw [handle_return_write, if_neg hv]
      exact hram j
  · intro hv
    rw [handle_return_write, if_neg (by omega)]

/-- Claim C8 witness: wheel edits on concrete two-cell states — a cell at
80 wheels to 81 and 79, a cell at 255 wheels up to 0, a cell at 0 wheels
down to 255, every result stays in range, and the typed value 300 is
rejected unchanged. -/
theorem interactive_writes_in_range_witness :
    (∀ j : Fin 2, (increment_ram_value_at twoCellState twoCellIdx).ram j ≤ 255) ∧
    (increment_ram_value_at midCellsState twoCellIdx).ram twoCellIdx =
      midCellsState.ram twoCellIdx + 1 ∧
    (increment_ram_value_at twoCellState twoCellIdx).ram twoCellIdx = 0 ∧
    (∀ j : Fin 2, (decrement_ram_value_at zeroCellsState twoCellIdx).ram j ≤ 255) ∧
    (decrement_ram_value_at midCellsState twoCellIdx).ram twoCellIdx =
      midCellsState.ram twoCellIdx - 1 ∧
    (decrement_ram_value_at zeroCellsState twoCellIdx).ram twoCellIdx = 255 ∧
    (∀ j : Fin 2, (handle_return_write twoCellState twoCellIdx 300).ram j ≤ 255) ∧
    (256 ≤ 300 → handle_return_write twoCellState twoCellIdx 300 = twoCellState) :=
  ⟨(interactive_writes_in_range twoCellState twoCellIdx 300 (by decide)).1,
    (interactive_writes_in_range midCellsState twoCellIdx 300 (by decide)).2.1 (by decide),
    (interactive_writes_in_range twoCellState twoCellIdx 300 (by decide)).2.2.1 (by decide),
    (interactive_writes_in_range zeroCellsState twoCellIdx 300 (by decide)).2.2.2.1,
    (interactive_writes_in_range midCellsState twoCellIdx 300 (by decide)).2.2.2.2.1 (by decide),
    (interactive_writes_in_range zeroCellsState twoCellIdx 300 (by decide)).2.2.2.2.2.1 (by decide),
    (interactive_writes_in_range twoCellState twoCellIdx 300 (by decide)).2.2.2.2.2.2.1,
    (interactive_writes_in_range twoCellState twoCellIdx 300 (by decide)).2.2.2.2.2.2.2⟩

end RemGui

end HackAtariHumanPlay

section SanityChecks

open HackAtariHumanPlay HackAtariHumanPlay.FishingDerby

example : ramGet (alter_shark 4 ram100) 75 = 105 := by decide
example : ramGet (alter_shark 4 (alter_shark 4 ram100)) 75 = 110 := by decide
example : ramGet (alter_shark 4 ram115) 75 = 120 := by decide
example : ramGet (alter_shark 4 ram121) 75 = 1 := by decide
example : ramGet (alter_shark 3 ram100) 75 = 25 := by decide
example : ramGet (alter_shark 3 ram30) 75 = 105 := by decide
example : ramGet (alter_fish 3 ram30) 70 = 86 := by decide
example : ramGet (alter_fish 3 ram90) 72 = 70 := by decide
example : ramGet (alter_fish 1 ram90) 74 = 44 := by decide
example : ramGet (alter_fish 2 ram30) 69 = 116 := by decide
example : modif_funcs badModifs 0 0 = none := by decide
example : modif_funcs exampleModifs 0 0 =
    some ([ModFunc.fish, ModFunc.shark], [], 3, 2) := by decide

end SanityChecks
